import Mathlib

/-!
Verification of the MathJax MML3 elementary-math transform (David Carlisle's
XSLT stylesheet embedded in `Mml3.XSLT`) and of the `Mml3` filter / handler
wiring.  The XSLT templates are shallowly embedded as fuel-indexed functions
over a generic XML tree.  Namespaces are not modelled: all source elements
live in the MathML namespace and are referred to by local name; the one place
the stylesheet uses an unprefixed name (`ancestor::mstack` in the generic
`mstack1` row template) can therefore never match a namespaced input element
and is embedded as the always-false branch it is.
-/

namespace Mml3

/-- Generic tree node: an element with tag, attributes (in document order) and
children, or a text node.  Adjacent output text nodes are kept unmerged. -/
inductive Node where
  | elem (tag : String) (attrs : List (String × String)) (children : List Node) : Node
  | text (s : String) : Node

abbrev Attr := String × String

/-- Value of the attribute `name`, if present. -/
def getAttr : List Attr → String → Option String
  | [], _ => none
  | (n, v) :: rest, name => if n = name then some v else getAttr rest name

/-- Add an attribute, replacing the value in place when the name exists
(the behaviour of `xsl:attribute` on an element that already has it). -/
def setAttr : List Attr → String → String → List Attr
  | [], name, v => [(name, v)]
  | (n, w) :: rest, name, v =>
    if n = name then (n, v) :: rest else (n, w) :: setAttr rest name v

/-- Fold a sequence of attribute additions over a base list. -/
def addAttrs (base : List Attr) : List Attr → List Attr
  | [] => base
  | (n, v) :: rest => addAttrs (setAttr base n v) rest

def Node.isElem : Node → Bool
  | .elem _ _ _ => true
  | .text _ => false

def nodeTag : Node → String
  | .elem t _ _ => t
  | .text _ => ""

def nodeAttrs : Node → List Attr
  | .elem _ a _ => a
  | .text _ => []

def nodeChildren : Node → List Node
  | .elem _ _ c => c
  | .text _ => []

def nodeAttr (n : Node) (name : String) : Option String :=
  getAttr (nodeAttrs n) name

/-- Element children, as selected by the XPath step `*`. -/
def elemChildren (c : List Node) : List Node := c.filter Node.isElem

def firstElem (c : List Node) : Option Node := (elemChildren c).head?

mutual

/-- XPath string value of a node: concatenation of all descendant text. -/
def stringValue : Node → String
  | .text s => s
  | .elem _ _ c => stringValueList c

def stringValueList : List Node → String
  | [] => ""
  | n :: ns => stringValue n ++ stringValueList ns

end

/-!  XPath numbers.  The stylesheet's offset arithmetic only ever produces
integers from integer-valued attributes, so numbers are modelled as
`Option Int`, with `none` standing for NaN (a non-numeric string such as the
fill marker `*`).  -/

abbrev XNum := Option Int

def allDigits (cs : List Char) : Bool := cs.all Char.isDigit

def digitsVal (cs : List Char) : Nat :=
  cs.foldl (fun a c => a * 10 + (c.toNat - 48)) 0

/-- `number()` of an attribute string (integer-valued attributes assumed;
XPath would additionally accept surrounding whitespace and decimals). -/
def xnum (s : String) : XNum :=
  match s.data with
  | '-' :: cs => if ¬ cs.isEmpty ∧ allDigits cs then some (-(digitsVal cs : Int)) else none
  | cs => if ¬ cs.isEmpty ∧ allDigits cs then some ((digitsVal cs : Int)) else none

def xadd : XNum → XNum → XNum
  | some a, some b => some (a + b)
  | _, _ => none

def xsub : XNum → XNum → XNum
  | some a, some b => some (a - b)
  | _, _ => none

def xmul : XNum → XNum → XNum
  | some a, some b => some (a * b)
  | _, _ => none

def xToString : XNum → String
  | some n => toString n
  | none => "NaN"

/-- A count used for `position() <= expr` loops: NaN compares false, and a
non-positive bound selects nothing. -/
def xcount : XNum → Nat
  | none => 0
  | some k => k.toNat

/-- XPath `round(x div 2)` for an integer `x` (ties round toward plus
infinity): the floor of `(x + 1) / 2`. -/
def xhalfRound (x : Int) : Int := Int.ediv (x + 1) 2

/-- XPath `sum(@name)`: 0 when the attribute is absent, its numeric value
otherwise. -/
def attrSum (a : List Attr) (name : String) : XNum :=
  match getAttr a name with
  | none => some 0
  | some s => xnum s

def isSpaceChar (c : Char) : Bool := c == ' ' || c == '\t' || c == '\n' || c == '\r'

/-- Whitespace-delimited words of a character list (`acc` holds the current
word, reversed). -/
def wordsAux : List Char → List Char → List (List Char)
  | [], acc => if acc.isEmpty then [] else [acc.reverse]
  | c :: cs, acc =>
    if isSpaceChar c then
      (if acc.isEmpty then [] else [acc.reverse]) ++ wordsAux cs []
    else wordsAux cs (c :: acc)

def joinSp : List (List Char) → List Char
  | [] => []
  | [w] => w
  | w :: ws => w ++ ' ' :: joinSp ws

/-- XPath `normalize-space`: trim and collapse internal whitespace runs. -/
def normalizeSpace (s : String) : String := String.mk (joinSp (wordsAux s.data []))

/-- Is `w` an initial run of `l`? -/
def leadsWith : List Char → List Char → Bool
  | _, [] => true
  | [], _ :: _ => false
  | c :: cs, w :: ws => c == w && leadsWith cs ws

/-- Characters before the first occurrence of `sep`, or `none` when `sep`
does not occur. -/
def subBefore (sep : List Char) : List Char → Option (List Char)
  | [] => if sep.isEmpty then some [] else none
  | c :: cs =>
    if leadsWith (c :: cs) sep then some []
    else (subBefore sep cs).map (fun r => c :: r)

/-- XPath `substring-before(s, sep)`: prefix before the first occurrence of
`sep`, or the empty string when `sep` does not occur. -/
def substrBefore (s sep : String) : String :=
  match subBefore sep.data s.data with
  | some r => String.mk r
  | none => ""

/-- XPath `contains(s, sep)`. -/
def strContains (s sep : String) : Bool := (subBefore sep.data s.data).isSome

/-- Parse a decimal literal as `(mantissa, scale)` with value
`mantissa / 10 ^ scale` (used only by the carry `scriptsizemultiplier`). -/
def parseDec (s : String) : Option (Int × Nat) :=
  let core : List Char → Bool → Option (Int × Nat) := fun t neg =>
    let sgn : Nat → Int := fun m => if neg then -(m : Int) else (m : Int)
    match subBefore ['.'] t with
    | none =>
      if ¬ t.isEmpty ∧ allDigits t then some (sgn (digitsVal t), 0) else none
    | some ip =>
      let fp := t.drop (ip.length + 1)
      if (subBefore ['.'] fp).isSome then none
      else if (¬ ip.isEmpty ∨ ¬ fp.isEmpty) ∧ allDigits ip ∧ allDigits fp then
        some (sgn (digitsVal (ip ++ fp)), fp.length)
      else none
  match s.data with
  | '-' :: cs => core cs true
  | cs => core cs false

/-- Round `n / d` (`d > 0`) to the nearest integer, ties toward plus
infinity, as XPath `round` does. -/
def roundRat (n d : Int) : Int := Int.ediv (2 * n + d) (2 * d)

def pow10 : Nat → Int
  | 0 => 1
  | k + 1 => 10 * pow10 k

/-- The `mathsize` percentage `round(@scriptsizemultiplier div .007)` used
when scaling carry content. -/
def carrySize (v : String) : String :=
  match parseDec v with
  | some (m, k) => toString (roundRat (m * 1000) (7 * pow10 k)) ++ "%"
  | none => "NaN%"

/-!  The `rtl`-mode attribute templates.  -/

/-- Bracket swapping of the six listed fence glyphs; any other fence value
is kept unchanged (role swap only). -/
def mirrorFence (v : String) : String :=
  if v = "(" then ")" else if v = ")" then "("
  else if v = "[" then "]" else if v = "]" then "["
  else if v = "\x7b" then "\x7d" else if v = "\x7d" then "\x7b"
  else v

/-- The eight `rtl`-mode text-substitution templates; every other text value
falls through to the built-in copy rule. -/
def mirrorText (s : String) : String :=
  if s = "(" then ")" else if s = ")" then "("
  else if s = "\x7b" then "\x7d" else if s = "\x7d" then "\x7b"
  else if s = "<" then ">" else if s = ">" then "<"
  else if s = "∈" then "∋" else if s = "∋" then "∈"
  else s

/-- One attribute processed in `rtl` mode: `@open`/`@close` swap roles (with
glyph swap for the listed brackets), `@notation='radical'` becomes
`top right`, and every other attribute is copied with `dir='ltr'` set. -/
def rtlAttr : Attr → List Attr
  | ("open", v) => [("close", mirrorFence v)]
  | ("close", v) => [("open", mirrorFence v)]
  | ("notation", v) =>
    if v = "radical" then [("notation", "top right")]
    else [("notation", v), ("dir", "ltr")]
  | (n, v) => [(n, v), ("dir", "ltr")]

/-- `apply-templates select="@*" mode="rtl"` over a whole attribute list,
later additions overriding earlier ones. -/
def rtlAttrs (a : List Attr) : List Attr := addAttrs [] (a.flatMap rtlAttr)

/-!  Pure `mstack1`-mode templates (no recursive `apply-templates`).  -/

/-- One table cell of a lowered numeral: a decimal point or comma gets an
extra `.15em` space before the single-character `mn`. -/
def mnCell (d : Char) : Node :=
  Node.elem "mtd" []
    ((if d = '.' ∨ d = ',' then [Node.elem "mspace" [("width", ".15em")] []] else []) ++
     [Node.elem "mn" [] [Node.text (String.mk [d])]])

/-- The `mn` template in mode `mstack1`.  `salign` is the governing
`mstack`'s `@stackalign` string (empty when absent), `dp?` the nearest
ancestor's `@decimalpoint`, `content` the raw string value of the `mn`.
The row is first created as `<m:mtr l="$p">` — without attribute-value
braces, so the literal string `$p` — and the `l` attribute is then
overwritten by `xsl:attribute` in the right / center / decimalpoint
branches only. -/
def mnTemplate (p : XNum) (salign : String) (dp? : Option String) (content : String) : Node :=
  let align := if salign = "" then "decimalpoint" else salign
  let dp := match dp? with
    | none => "."
    | some s => if s = "" then "." else s
  let mn := normalizeSpace content
  let len : Int := mn.length
  let attrs :=
    if align = "right" ∨ (align = "decimalpoint" ∧ ¬ strContains mn dp) then
      [("l", xToString (xadd p (some len)))]
    else if align = "center" then
      [("l", match xadd p (some len) with
             | some v => toString (xhalfRound v)
             | none => "NaN")]
    else if align = "decimalpoint" then
      [("l", xToString (xadd p (some ((substrBefore mn dp).length : Int))))]
    else
      [("l", "$p")]
  Node.elem "mtr" attrs (mn.data.map mnCell)

/-- The line segment cell emitted for each unit of an `msline`'s length
(also the single fill cell, which additionally carries class
`mslinemax`). -/
def mslineCell (cls w : String) : Node :=
  Node.elem "mtd" [("class", cls)]
    [Node.elem "mpadded" [("lspace", "-0.2em"), ("width", "0em"), ("height", "0em")]
      [Node.elem "mfrac" [("linethickness", w)]
        [Node.elem "mspace" [("width", ".5em")] [], Node.elem "mrow" [] []]]]

/-- The `msline` template in mode `mstack1`: the anchor attribute `l` is the
fill marker `*` when `@length` is absent, empty or zero, `p + @length`
under right or decimalpoint alignment, and `p` otherwise. -/
def mslineTemplate (p : XNum) (salign : String) (a : List Attr) : Node :=
  let align := if salign = "" then "decimalpoint" else salign
  let length? := getAttr a "length"
  let lAbsent : Bool :=
    match length? with
    | none => true
    | some s => s = "" ∨ xnum s = some 0
  let l :=
    if lAbsent then "*"
    else if align = "right" ∨ align = "decimalpoint" then
      xToString (xadd p (xnum (length?.getD "")))
    else xToString p
  let w := match getAttr a "mslinethickness" with
    | some "thin" => "0.1em"
    | some "medium" => "0.15em"
    | some "thick" => "0.2em"
    | some v => v
    | none => "0.15em"
  let cells :=
    if lAbsent then [mslineCell "mslinemax" w]
    else List.replicate (xcount (xnum (length?.getD ""))) (mslineCell "msline" w)
  Node.elem "mtr" [("class", "msline"), ("l", l)] cells

/-!  The row-emission loop of the `mstack` template (lines 324–408 of the
stylesheet).  It only uses `xsl:copy-of`, so it is a pure function of the
intermediate rows.  The `(//node())[position() <= $n]` constructs are the
stylesheet's counting idiom for emitting `n` copies and are embedded as
`List.replicate`.  -/

/-- Element child at XPath position `pos` (1-based; NaN or out-of-range
selects nothing). -/
def elemAt1 (c : Node) (pos : XNum) : Option Node :=
  match pos with
  | some k => if k ≥ 1 then (elemChildren (nodeChildren c)).get? (k - 1).toNat else none
  | none => none

/-- Maximum numeric `l` attribute over the intermediate rows (the
descending numeric sort in the stylesheet); NaN when no row has a numeric
`l`. -/
def maxlOf (erows : List Node) : XNum :=
  match erows.filterMap (fun r => (nodeAttr r "l").bind xnum) with
  | [] => none
  | x :: xs => some (xs.foldl max x)

/-- Merge one carry entry `cy` into a copied row cell: optionally wrap the
cell content in a crossout `menclose`, then overlay the carry content at
its `location` (n default, nw, s, sw, ne, se, w, e). -/
def carryOverlayCell (cy? : Option Node) (cell : Node) : Node :=
  let base := elemChildren (nodeChildren cell)
  let cyKids := match cy? with
    | some cy => elemChildren (nodeChildren cy)
    | none => []
  let crossout := (cy?.bind (fun cy => nodeAttr cy "crossout")).getD ""
  let b :=
    if ¬ (crossout ≠ "" ∨ crossout = "none") then base
    else [Node.elem "menclose" [("notation", crossout)] base]
  let loc := (cy?.bind (fun cy => nodeAttr cy "location")).getD ""
  let children :=
    if cyKids.any (fun k => nodeTag k == "none") ∨ cyKids.isEmpty then b
    else if loc = "" ∨ loc = "n" then
      [Node.elem "mover" []
        (b ++ [Node.elem "mpadded" [("width", "0em"), ("lspace", "-0.5width")] cyKids])]
    else if loc = "nw" then
      [Node.elem "mmultiscripts" []
        (b ++ [Node.elem "mprescripts" [] [], Node.elem "none" [] [],
               Node.elem "mpadded" [("lspace", "-1width"), ("width", "0em")] cyKids])]
    else if loc = "s" then
      [Node.elem "munder" []
        (b ++ [Node.elem "mpadded" [("width", "0em"), ("lspace", "-0.5width")] cyKids])]
    else if loc = "sw" then
      [Node.elem "mmultiscripts" []
        (b ++ [Node.elem "mprescripts" [] [],
               Node.elem "mpadded" [("lspace", "-1width"), ("width", "0em")] cyKids,
               Node.elem "none" [] []])]
    else if loc = "ne" then
      [Node.elem "msup" [] (b ++ [Node.elem "mpadded" [("width", "0em")] cyKids])]
    else if loc = "se" then
      [Node.elem "msub" [] (b ++ [Node.elem "mpadded" [("width", "0em")] cyKids])]
    else if loc = "w" then
      Node.elem "msup" []
        [Node.elem "mrow" [] [],
         Node.elem "mpadded" [("lspace", "-1width"), ("width", "0em")] cyKids] :: b
    else if loc = "e" then
      b ++ [Node.elem "msup" []
        [Node.elem "mrow" [] [], Node.elem "mpadded" [("width", "0em")] cyKids]]
    else b
  Node.elem (nodeTag cell) (nodeAttrs cell) children

/-- Cells of a row that absorbs the carry row `c` preceding it: leading
cells for the columns left of the row, then each row cell merged with the
carry entry at its column. -/
def carryCells (maxl : XNum) (c r : Node) : List Node :=
  let rl := xnum ((nodeAttr r "l").getD "")
  let cl := xnum ((nodeAttr c "l").getD "")
  let offset := xsub maxl rl
  let ldiff := xsub cl rl
  let loffset := xsub maxl cl
  let lead := (List.range (xcount offset)).map (fun i =>
    let cy? := elemAt1 c (xsub (some ((i : Int) + 1)) loffset)
    Node.elem "mtd" []
      (match cy? with
       | some cy =>
         if ¬ (elemChildren (nodeChildren cy)).isEmpty then
           [Node.elem "mover" []
             [Node.elem "mphantom" [] [Node.elem "mn" [] [Node.text "0"]],
              Node.elem "mpadded" [("width", "0em"), ("lspace", "-0.5width")]
                (elemChildren (nodeChildren cy))]]
         else []
       | none => []))
  let main := (elemChildren (nodeChildren r)).enum.map (fun p =>
    carryOverlayCell (elemAt1 c (xadd (some ((p.1 : Int) + 1)) ldiff)) p.2)
  lead ++ main

/-- One emitted `mtr` of the lowered stack: a fill line expands to `maxl`
copies of its cell, a row preceded by a carry row absorbs it, and any other
row is padded with `maxl - l` empty cells. -/
def mstackRow (maxl : XNum) (cOpt : Option Node) (r : Node) : Node :=
  let offset := xsub maxl (xnum ((nodeAttr r "l").getD ""))
  let classAttr :=
    if nodeAttr r "class" = some "msline" then [("class", "msline")] else []
  let cells :=
    if nodeAttr r "class" = some "msline" ∧ nodeAttr r "l" = some "*" then
      match firstElem (nodeChildren r) with
      | some msl => List.replicate (xcount maxl) msl
      | none => []
    else
      match cOpt with
      | some c => carryCells maxl c r
      | none =>
        List.replicate (xcount offset) (Node.elem "mtd" [] []) ++
          elemChildren (nodeChildren r)
  Node.elem "mtr" classAttr cells

/-- The row loop: a carry row is emitted on its own only when the row after
it is again a carry row; otherwise it is absorbed by its following row. -/
def mstackRows (maxl : XNum) : Option Node → List Node → List Node
  | _, [] => []
  | prev, r :: rest =>
    let keep := nodeAttr r "class" ≠ some "mscarries" ∨
      (rest.head?.bind (fun n => nodeAttr n "class")) = some "mscarries"
    let c := match prev with
      | some pr => if nodeAttr pr "class" = some "mscarries" then some pr else none
      | none => none
    (if keep then [Node.text "\n", mstackRow maxl c r] else []) ++
      mstackRows maxl (some r) rest

/-!  Pure helpers of the `msrow` template.  -/

def rowHasMtdMn (r : Node) : Bool :=
  (nodeTag r == "mtr") && (nodeChildren r).any (fun d =>
    (nodeTag d == "mtd") && (nodeChildren d).any (fun m => nodeTag m == "mn"))

/-- First generated row containing a numeral cell, with its index (the
index is `count(preceding-sibling::*/@l)`: every generated row carries an
`l` attribute). -/
def firstMtdMnRow (erows : List Node) : Option (Nat × Node) :=
  (erows.enum.filter (fun p => rowHasMtdMn p.2)).head?

/-- `count(c:node-set($row)/m:mtr/m:mtd)`. -/
def countMtds (erows : List Node) : Nat :=
  (erows.filter (fun r => nodeTag r == "mtr")).foldl
    (fun acc r => acc + ((nodeChildren r).filter (fun d => nodeTag d == "mtd")).length) 0

/-- `copy-of select="c:node-set($row)/m:mtr/*"`: all cells of the generated
rows, concatenated. -/
def rowCells (erows : List Node) : List Node :=
  (erows.filter (fun r => nodeTag r == "mtr")).flatMap
    (fun r => elemChildren (nodeChildren r))

/-!  Pure `ml`-mode row templates.  -/

/-- A leading `msline` row (`mtr` with no preceding sibling, priority 3):
each cell with line content becomes a small bottom-enclosed space. -/
def firstRowMsline (a : List Attr) (c : List Node) : Node :=
  Node.elem "mtr" a ((c.filter (fun d => nodeTag d == "mtd")).map (fun cell =>
    Node.elem "mtd" (nodeAttrs cell)
      (if (nodeChildren cell).any (fun x => nodeTag x == "mpadded") then
        [Node.elem "menclose" [("notation", "bottom")]
          [Node.elem "mpadded" [("depth", ".1em"), ("height", "1em"), ("width", ".5em")]
            [Node.elem "mspace" [("width", ".2em")] []]]]
       else [])))

/-- A row whose following sibling is an `msline` row: cells under the line
span are wrapped in a bottom-border enclosure. -/
def underlineMergeRow (a : List Attr) (c : List Node) (next : Node) : Node :=
  let m := (nodeChildren next).filter (fun d => nodeTag d == "mtd")
  Node.elem "mtr" a ((c.filter (fun d => nodeTag d == "mtd")).enum.map (fun p =>
    let lined := match m.get? p.1 with
      | some md => (nodeChildren md).any (fun x => nodeTag x == "mpadded")
      | none => false
    Node.elem "mtd" (nodeAttrs p.2)
      (if lined then
        [Node.elem "mpadded" [("depth", "+.2em")]
          [Node.elem "menclose" [("notation", "bottom")]
            [Node.elem "mpadded" [("depth", ".1em"), ("height", ".8em"), ("width", ".8em")]
              (Node.elem "mspace" [("width", ".15em")] [] ::
                elemChildren (nodeChildren p.2))]]]
       else elemChildren (nodeChildren p.2))))

/-!  The template-dispatch engine.  Re-dispatch over freshly built trees
(`c:node-set($v)`) is not structurally decreasing, so every recursive
function takes a fuel argument that strictly decreases on each call; out of
fuel, the empty sequence is produced.  Nesting depth of real inputs is
small, so any sufficiently large fuel computes the transform.  -/

mutual

/-- Default-mode dispatch: the `mstack` and `mlongdiv` templates at
priority 11, the `rtl` entry template for elements with `dir='rtl'` at
priority 10, the identity-copy template `match="*"` otherwise, and the
built-in copy rule for text. -/
def transform : Nat → Node → List Node
  | _, .text s => [.text s]
  | 0, .elem _ _ _ => []
  | f+1, .elem t a c =>
    if t = "mstack" then mstackTemplate f a c
    else if t = "mlongdiv" then mlongdivTemplate f a c
    else if getAttr a "dir" = some "rtl" then rtlNode f (.elem t a c)
    else [.elem t a (transformList f c)]

/-- `xsl:apply-templates` in the default mode over a sequence of nodes. -/
def transformList : Nat → List Node → List Node
  | _, [] => []
  | 0, _ :: _ => []
  | f+1, n :: ns => transform f n ++ transformList f ns

/-- `rtl`-mode dispatch over one node, ordered by template priority:
`mmultiscripts` without prescripts (3), table/under/over containers and the
script forms (2), bevelled fractions and `madruwb` enclosures (0.5), the
named templates (0), and the generic reversing copy (-0.5); text hits the
substitution table or the built-in copy. -/
def rtlNode : Nat → Node → List Node
  | _, .text s => [.text (mirrorText s)]
  | 0, .elem _ _ _ => []
  | f+1, .elem t a c =>
    let els := elemChildren c
    if t = "mmultiscripts" then
      if els.any (fun n => nodeTag n == "mprescripts") then
        let before := els.takeWhile (fun n => nodeTag n != "mprescripts")
        let post := before.drop 1
        let pres := (els.drop before.length).drop 1
        [Node.elem "mmultiscripts" []
          ((match els.head? with | some b => rtlNode f b | none => []) ++
           rtlPairs f pres (((List.range pres.length).filter (fun j => j % 2 = 0)).reverse) ++
           [Node.elem "mprescripts" [] []] ++
           rtlPairs f post
             (((List.range post.length).filter (fun j => (post.length - j) % 2 = 0)).reverse))]
      else
        [Node.elem "mmultiscripts" []
          ((match els.head? with | some b => rtlNode f b | none => []) ++
           [Node.elem "mprescripts" [] []] ++
           rtlPairs f els (((List.range els.length).filter (fun j => j % 2 = 1)).reverse))]
    else if t = "mtable" ∨ t = "munder" ∨ t = "mover" ∨ t = "munderover" then
      [Node.elem t (rtlAttrs a) (rtlSeq f c)]
    else if t = "msup" then
      [Node.elem "mmultiscripts" []
        ((match els.get? 0 with | some b => rtlNode f b | none => []) ++
         [Node.elem "mprescripts" [] [], Node.elem "none" [] []] ++
         (match els.get? 1 with | some s => rtlNode f s | none => []))]
    else if t = "msub" then
      [Node.elem "mmultiscripts" []
        ((match els.get? 0 with | some b => rtlNode f b | none => []) ++
         [Node.elem "mprescripts" [] []] ++
         (match els.get? 1 with | some s => rtlNode f s | none => []) ++
         [Node.elem "none" [] []])]
    else if t = "msubsup" then
      [Node.elem "mmultiscripts" []
        ((match els.get? 0 with | some b => rtlNode f b | none => []) ++
         [Node.elem "mprescripts" [] []] ++
         (match els.get? 1 with | some s => rtlNode f s | none => []) ++
         (match els.get? 2 with | some s => rtlNode f s | none => []))]
    else if t = "mfrac" then
      if getAttr a "bevelled" = some "true" then
        [Node.elem "mrow" []
          [Node.elem "msub" []
            (Node.elem "mi" [] [] ::
              (match els.get? 1 with | some d => rtlNode f d | none => [])),
           Node.elem "mo" [] [Node.text "\\"],
           Node.elem "msup" []
            (Node.elem "mi" [] [] ::
              (match els.get? 0 with | some d => rtlNode f d | none => []))]]
      else [Node.elem "mfrac" (rtlAttrs a) (rtlSeq f els)]
    else if t = "mroot" then
      [Node.elem "msup" []
        (Node.elem "menclose" (addAttrs [("notation", "top right")] (a.flatMap rtlAttr))
           (match els.get? 0 with | some b => rtlNode f b | none => []) ::
         (match els.get? 1 with | some i => rtlNode f i | none => []))]
    else if t = "msqrt" then
      [Node.elem "menclose" (addAttrs [("notation", "top right")] (a.flatMap rtlAttr))
        (match els.get? 0 with | some b => rtlNode f b | none => [])]
    else if t = "mstack" ∨ t = "mlongdiv" then
      [Node.elem "mrow" [("dir", "ltr")] (transform f (.elem t a c))]
    else if t = "menclose" ∧ getAttr a "notation" = some "madruwb" then
      [Node.elem "menclose" [("notation", "bottom right")] (rtlSeq f c)]
    else
      [Node.elem t (rtlAttrs a) (rtlRev f c.reverse)]

/-- The generic `rtl` child loop: children in descending position, each
preceded by an explicit space text node (the caller passes the reversed
child list). -/
def rtlRev : Nat → List Node → List Node
  | _, [] => []
  | 0, _ :: _ => []
  | f+1, n :: ns => Node.text " " :: (rtlNode f n ++ rtlRev f ns)

/-- `rtl`-mode processing of a node sequence in document order. -/
def rtlSeq : Nat → List Node → List Node
  | _, [] => []
  | 0, _ :: _ => []
  | f+1, n :: ns => rtlNode f n ++ rtlSeq f ns

/-- Emit, for each index `j` of the given list, the `rtl` transform of the
element at `j` followed by that of its next sibling (a script pair). -/
def rtlPairs : Nat → List Node → List Nat → List Node
  | _, _, [] => []
  | 0, _, _ :: _ => []
  | f+1, l, j :: js =>
    (match l.get? j with | some p => rtlNode f p | none => []) ++
    (match l.get? (j+1) with | some q => rtlNode f q | none => []) ++
    rtlPairs f l js

/-- The `mstack` template (priority 11): lower the children in mode
`mstack1` at offset 0, resolve the stack width as the maximal anchor, emit
the padded rows into an `mtable`, and post-process the table in mode
`ml`. -/
def mstackTemplate : Nat → List Attr → List Node → List Node
  | 0, _, _ => []
  | f+1, a, c =>
    let sa := (getAttr a "stackalign").getD ""
    let dp? := getAttr a "decimalpoint"
    let rows := mstack1List f sa dp? (some 0) (elemChildren c)
    let erows := rows.filter Node.isElem
    let maxl := maxlOf erows
    let mtable := Node.elem "mtable"
      ([("columnspacing", "0em"), ("rowspacing", "0em")] ++
        (match getAttr a "align" with | some v => [("align", v)] | none => []))
      (mstackRows maxl none erows)
    mlList f false [mtable]

/-- `mstack1`-mode dispatch: `msrow`, `mn`, `msgroup`, `msline`,
`mscarries`, and the generic single-cell row for anything else.  The
generic row's `l` is always `1 + p`: its left-alignment branch tests the
unprefixed `ancestor::mstack`, which never matches a namespaced input. -/
def mstack1Node : Nat → String → Option String → XNum → Node → List Node
  | _, _, _, _, .text _ => []
  | 0, _, _, _, .elem _ _ _ => []
  | f+1, sa, dp?, p, .elem t a c =>
    if t = "msrow" then msrowTemplate f sa dp? p a c
    else if t = "mn" then [mnTemplate p sa dp? (stringValueList c)]
    else if t = "msgroup" then
      let dp2 := match getAttr a "decimalpoint" with | some v => some v | none => dp?
      msgroupList f sa dp2 p (attrSum a "position") (attrSum a "shift") 0 (elemChildren c)
    else if t = "msline" then [mslineTemplate p sa a]
    else if t = "mscarries" then
      let l1 : Int := if sa = "left" then 0 else (elemChildren c).length
      [Node.elem "mtr"
        [("class", "mscarries"),
         ("l", xToString (xadd (xadd p (some l1)) (attrSum a "position")))]
        (mscList f a (elemChildren c))]
    else
      [Node.elem "mtr" [("l", xToString (xadd (some 1) p))]
        [Node.elem "mtd" [] (transform f (.elem t a c))]]

/-- `apply-templates mode="mstack1"` over element children, all at the same
inherited offset. -/
def mstack1List : Nat → String → Option String → XNum → List Node → List Node
  | _, _, _, _, [] => []
  | 0, _, _, _, _ :: _ => []
  | f+1, sa, dp?, p, n :: ns => mstack1Node f sa dp? p n ++ mstack1List f sa dp? p ns

/-- The `msrow` template in mode `mstack1`: lower the children at offset 0,
compute the row anchor from the alignment (decimal digits of the first
numeral row, total cell count, or 0), and emit one row holding all cells. -/
def msrowTemplate : Nat → String → Option String → XNum → List Attr → List Node → List Node
  | 0, _, _, _, _, _ => []
  | f+1, sa, dp?, p, a, c =>
    let align := if sa = "" then "decimalpoint" else sa
    let dp2 := match getAttr a "decimalpoint" with | some v => some v | none => dp?
    let rows := mstack1List f sa dp2 (some 0) (elemChildren c)
    let erows := rows.filter Node.isElem
    let l1 : XNum :=
      if align = "decimalpoint" ∧ c.any (fun n => nodeTag n == "mn") then
        match firstMtdMnRow erows with
        | some ir => xadd (xnum ((nodeAttr ir.2 "l").getD "")) (some (ir.1 : Int))
        | none => none
      else if align = "right" ∨ align = "decimalpoint" then some ((countMtds erows : Int))
      else some 0
    [Node.text "\n",
     Node.elem "mtr"
       [("class", "msrow"), ("l", xToString (xadd (xadd l1 (attrSum a "position")) p))]
       (rowCells erows)]

/-- The `msgroup` child loop: child `i` (0-based) is lowered at offset
`p + position + i * shift`. -/
def msgroupList : Nat → String → Option String → XNum → XNum → XNum → Nat → List Node → List Node
  | _, _, _, _, _, _, _, [] => []
  | 0, _, _, _, _, _, _, _ :: _ => []
  | f+1, sa, dp?, p, thisp, s, i, n :: ns =>
    mstack1Node f sa dp? (xadd (xadd p thisp) (xmul (some (i : Int)) s)) n ++
      msgroupList f sa dp? p thisp s (i + 1) ns

/-- `msc`-mode cells of a carry row: an `mscarry` child contributes its own
`location`/`crossout`, any other child its parent's; content is optionally
scaled by `scriptsizemultiplier`. -/
def mscCell : Nat → List Attr → Node → List Node
  | 0, _, _ => []
  | f+1, pa, n =>
    let isCarry := nodeTag n == "mscarry"
    let src := if isCarry then nodeAttrs n else pa
    let content := if isCarry then transformList f (nodeChildren n) else transform f n
    let attrs :=
      (match getAttr src "location" with | some v => [("location", v)] | none => []) ++
      (match getAttr src "crossout" with | some v => [("crossout", v)] | none => [])
    [Node.elem "mtd" attrs
      (match getAttr pa "scriptsizemultiplier" with
       | some v => [Node.elem "mstyle" [("mathsize", carrySize v)] content]
       | none => content)]

def mscList : Nat → List Attr → List Node → List Node
  | _, _, [] => []
  | 0, _, _ :: _ => []
  | f+1, pa, n :: ns => mscCell f pa n ++ mscList f pa ns

/-- `ml`-mode dispatch for one node, given whether a preceding element
sibling exists and the following element sibling: leading `msline` rows
shrink to small enclosures (priority 3), other `msline` rows vanish into
the underline of the preceding row (priority 2), a row followed by an
`msline` row absorbs it as a bottom border (priority 0.5), `none` becomes
an empty `mrow`, and everything else is copied. -/
def mlOne : Nat → Bool → Option Node → Node → List Node
  | _, _, _, .text s => [.text s]
  | 0, _, _, .elem _ _ _ => []
  | f+1, prev, next, .elem t a c =>
    if t = "mtr" ∧ getAttr a "class" = some "msline" ∧ prev = false then
      [firstRowMsline a c]
    else if t = "mtr" ∧ getAttr a "class" = some "msline" then []
    else if t = "mtr" ∧ (next.bind (fun m => nodeAttr m "class")) = some "msline" then
      match next with
      | some nx => [underlineMergeRow a c nx]
      | none => []
    else if t = "none" then [Node.elem "mrow" [] []]
    else [Node.elem t a (mlList f false c)]

/-- `ml`-mode over a sibling list, threading the sibling context. -/
def mlList : Nat → Bool → List Node → List Node
  | _, _, [] => []
  | 0, _, _ :: _ => []
  | f+1, prev, n :: ns =>
    mlOne f prev (firstElem ns) n ++ mlList f (prev || n.isElem) ns

/-- The `mlongdiv` template (priority 11): build an intermediate `mstack`
whose shape depends on `@longdivstyle` (three positional arguments: divisor
`*[1]`, quotient `*[2]`, dividend `*[3]`; trailing children copied
verbatim), lower it through the `mstack` template, and for the stacked
styles attach the divisor/quotient side table. -/
def mlongdivTemplate : Nat → List Attr → List Node → List Node
  | 0, _, _ => []
  | f+1, a, c =>
    let els := elemChildren c
    let d1 := els.get? 0
    let d2 := els.get? 1
    let d3 := els.get? 2
    let rest := els.drop 3
    let cOf : Option Node → List Node := fun o => o.toList
    let len3 : Int := (((d3.map stringValue).getD "").length : Int)
    let style := (getAttr a "longdivstyle").getD ""
    let dpA := match getAttr a "decimalpoint" with
      | some v => [("decimalpoint", v)]
      | none => []
    let stacked := style = "stackedrightright" ∨ style = "mediumstackedrightright" ∨
      style = "shortstackedrightright" ∨ style = "stackedleftleft"
    let msKids : List Node :=
      if style = "left)(right" then
        [Node.elem "msrow" []
          ([Node.elem "mrow" [] (cOf d1), Node.elem "mo" [] [Node.text ")"]] ++
           cOf d3 ++ [Node.elem "mo" [] [Node.text "("]] ++ cOf d2)]
      else if style = "left/\\right" then
        [Node.elem "msrow" []
          ([Node.elem "mrow" [] (cOf d1), Node.elem "mo" [] [Node.text "/"]] ++
           cOf d3 ++ [Node.elem "mo" [] [Node.text "\\"]] ++ cOf d2)]
      else if style = ":right=right" then
        [Node.elem "msrow" []
          (cOf d3 ++ [Node.elem "mo" [] [Node.text ":"]] ++ cOf d1 ++
           [Node.elem "mo" [] [Node.text "="]] ++ cOf d2)]
      else if stacked then cOf d3
      else if style = "stackedleftlinetop" then
        cOf d2 ++
        [Node.elem "msline" [("length", toString len3)] [],
         Node.elem "msrow" []
           (Node.elem "mrow" []
              [Node.elem "menclose" [("notation", "bottom right")] (cOf d1)] ::
            cOf d3)]
      else if style = "righttop" then
        cOf d2 ++
        [Node.elem "msline" [("length", toString len3)] [],
         Node.elem "msrow" []
           (cOf d3 ++ [Node.elem "menclose" [("notation", "top left bottom")] (cOf d1)])]
      else
        cOf d2 ++
        [Node.elem "msline" [("length", toString (len3 + 1))] [],
         Node.elem "msrow" []
           ([Node.elem "mrow" [] (cOf d1 ++ [Node.elem "mspace" [("width", ".2em")] []]),
             Node.elem "mpadded"
               [("voffset", ".1em"), ("lspace", "-.15em"), ("depth", "-.2em"),
                ("height", "-.2em")]
               [Node.elem "mo" [("minsize", "1.2em")] [Node.text ")"]]] ++ cOf d3)]
    let ms := Node.elem "mstack"
      (dpA ++ (if stacked then [("align", "top")] else [])) (msKids ++ rest)
    let sideTable : String → Node := fun nt =>
      Node.elem "mtable" [("align", "top")]
        [Node.elem "mtr" [] [Node.elem "menclose" [("notation", nt)] (cOf d1)],
         Node.elem "mtr" [] [Node.elem "mtd" [] (cOf d2)]]
    if style = "stackedrightright" then
      [Node.elem "menclose" [("notation", "right")] (transform f ms), sideTable "bottom"]
    else if style = "mediumstackedrightright" then
      transform f ms ++ [Node.elem "menclose" [("notation", "left")] [sideTable "bottom"]]
    else if style = "shortstackedrightright" then
      transform f ms ++ [sideTable "left bottom"]
    else if style = "stackedleftleft" then
      [sideTable "bottom", Node.elem "menclose" [("notation", "left")] (transform f ms)]
    else transform f ms

end

/-!  The `Mml3` filter and the `Mml3Handler` wiring (the TypeScript part of
the module).  -/

/-- The whole-tree transform used by the filter: in the browser path the
first child of the transformed document is taken (the Node path delegates
to an external module implementing the same stylesheet). -/
def mml3Transform (n : Node) : Node := (transform 1000 n).headD n

/-- The data reaching `mmlFilter`: the tree (`args.data`) and the hosting
document's `enableMml3` option. -/
structure FilterData where
  data : Node
  enableMml3 : Bool

/-- `Mml3.mmlFilter`: transform `args.data` only when the document option
`enableMml3` is set. -/
def mmlFilter (args : FilterData) : FilterData :=
  if args.enableMml3 then { args with data := mml3Transform args.data } else args

/-- The `enableMml3` entry added to the handler document class OPTIONS. -/
def enableMml3Default : Bool := true

/-- An input jax as seen by the `Mml3Handler` document constructor: its
name, its `options._mml3` guard flag (initially unset), and the number of
`mmlFilter`s added to its filter list. -/
structure Jax where
  name : String
  mml3Flag : Bool
  filters : Nat

/-- The `Mml3Handler` document-constructor loop: walk the input jax list,
and at the first jax named `MathML` add the filter and set `_mml3` unless
the flag is already set, then stop (`break`). -/
def addMml3Filter : List Jax → List Jax
  | [] => []
  | j :: js =>
    if j.name = "MathML" then
      (if j.mml3Flag then j
       else { j with filters := j.filters + 1, mml3Flag := true }) :: js
    else j :: addMml3Filter js

/-!  Boolean structural equality on trees, with soundness: concrete tree
equalities are established by evaluation through it.  -/

mutual

def nodeEqB : Node → Node → Bool
  | .text s, .text t => s == t
  | .elem t1 a1 c1, .elem t2 a2 c2 => t1 == t2 && a1 == a2 && nodesEqB c1 c2
  | .text _, .elem _ _ _ => false
  | .elem _ _ _, .text _ => false

def nodesEqB : List Node → List Node → Bool
  | [], [] => true
  | x :: xs, y :: ys => nodeEqB x y && nodesEqB xs ys
  | [], _ :: _ => false
  | _ :: _, [] => false

end

mutual

def nodeEqB_sound : (a b : Node) → nodeEqB a b = true → a = b
  | .text s, .text t, h => by
    simp only [nodeEqB] at h
    exact congrArg Node.text (eq_of_beq h)
  | .elem t1 a1 c1, .elem t2 a2 c2, h => by
    simp only [nodeEqB, Bool.and_eq_true] at h
    obtain ⟨⟨h1, h2⟩, h3⟩ := h
    cases eq_of_beq h1
    cases eq_of_beq h2
    cases nodesEqB_sound c1 c2 h3
    rfl
  | .text _, .elem _ _ _, h => by simp [nodeEqB] at h
  | .elem _ _ _, .text _, h => by simp [nodeEqB] at h

def nodesEqB_sound : (xs ys : List Node) → nodesEqB xs ys = true → xs = ys
  | [], [], _ => rfl
  | x :: xs, y :: ys, h => by
    simp only [nodesEqB, Bool.and_eq_true] at h
    cases nodeEqB_sound x y h.1
    cases nodesEqB_sound xs ys h.2
    rfl
  | [], _ :: _, h => by simp [nodesEqB] at h
  | _ :: _, [], h => by simp [nodesEqB] at h

end

/-!  Concrete claim inputs.  -/

/-- `mlongdiv[longdivstyle=":right=right"]` with divisor 3, quotient 12,
dividend 36. -/
def c1Input : Node :=
  Node.elem "mlongdiv" [("longdivstyle", ":right=right")]
    [Node.elem "mn" [] [Node.text "3"],
     Node.elem "mn" [] [Node.text "12"],
     Node.elem "mn" [] [Node.text "36"]]

/-- A table cell holding a single token element. -/
def tokenCell (t s : String) : Node :=
  Node.elem "mtd" [] [Node.elem t [] [Node.text s]]

/-- A superscripted expression built from listed script substitutions. -/
def c2Input : Node :=
  Node.elem "msup" []
    [Node.elem "mi" [] [Node.text "x"], Node.elem "mn" [] [Node.text "2"]]

/-!  Theorems.  -/

/-- C1 (counterexample): for the `:right=right` long division of the claim,
the transform's output is a single `mtable` element — a table wrapper — and
the single row sits inside it, contrary to the claim's "no table/stack
wrapper around it". -/
theorem c1_counterexample :
    (transform 40 c1Input).map nodeTag = ["mtable"] ∧
    (((transform 40 c1Input).flatMap nodeChildren).filter Node.isElem).map nodeTag =
      ["mtr"] := by
  exact ⟨by decide, by decide⟩

/-- C1 (amended): the `:right=right` long division of the claim produces an
`mtable` (columnspacing and rowspacing 0) holding exactly one row whose
cells are, in order, the dividend digits 3 and 6, the operator `:`, the
divisor 3, the operator `=`, and the quotient digits 1 and 2 — the claimed
single-row content and order, but wrapped in the table produced by stack
lowering. -/
theorem c1_amended :
    transform 40 c1Input =
      [Node.elem "mtable" [("columnspacing", "0em"), ("rowspacing", "0em")]
        [Node.text "\n",
         Node.elem "mtr" []
           [tokenCell "mn" "3", tokenCell "mn" "6", tokenCell "mo" ":",
            tokenCell "mn" "3", tokenCell "mo" "=",
            tokenCell "mn" "1", tokenCell "mn" "2"]]] :=
  nodesEqB_sound _ _ (by decide)

/-- Helper: one unfolding step of the default-mode dispatch on an element
(the four-way priority choice). -/
theorem transform_elem_unfold (f : Nat) (t : String) (a : List Attr) (c : List Node) :
    transform (f + 1) (Node.elem t a c) =
      (if t = "mstack" then mstackTemplate f a c
       else if t = "mlongdiv" then mlongdivTemplate f a c
       else if getAttr a "dir" = some "rtl" then rtlNode f (Node.elem t a c)
       else [Node.elem t a (transformList f c)]) := rfl

/-- Helper: the text-substitution table is symmetric, hence an involution on
every string. -/
theorem mirrorText_mirrorText (s : String) : mirrorText (mirrorText s) = s := by
  by_cases h1 : s = "("
  · subst h1; rfl
  by_cases h2 : s = ")"
  · subst h2; rfl
  by_cases h3 : s = "\x7b"
  · subst h3; rfl
  by_cases h4 : s = "\x7d"
  · subst h4; rfl
  by_cases h5 : s = "<"
  · subst h5; rfl
  by_cases h6 : s = ">"
  · subst h6; rfl
  by_cases h7 : s = "∈"
  · subst h7; rfl
  by_cases h8 : s = "∋"
  · subst h8; rfl
  simp [mirrorText, h1, h2, h3, h4, h5, h6, h7, h8]

/-- C2 (counterexample): applying the rtl-mode transformation twice to the
superscript tree `msup(mi x, mn 2)` — built from the listed script
substitutions — does not return the original tree: the first pass rewrites
it into `mmultiscripts`, and the second pass keeps that form. -/
theorem c2_counterexample :
    (rtlNode 30 c2Input).flatMap (rtlNode 30) ≠ [c2Input] := fun h =>
  absurd (congrArg (List.map nodeTag) h) (by decide)

/-- C2 (amended): the involution holds for the text substitutions — on
every text node, mirroring twice returns the original — but it does not
extend to the script substitutions, which rewrite `msup`/`msub`/`msubsup`
into `mmultiscripts` (see the counterexample). -/
theorem c2_amended (f g : Nat) (s : String) :
    (rtlNode f (Node.text s)).flatMap (rtlNode g) = [Node.text s] := by
  have h1 : rtlNode f (Node.text s) = [Node.text (mirrorText s)] := by
    cases f <;> rfl
  have h2 : rtlNode g (Node.text (mirrorText s)) =
      [Node.text (mirrorText (mirrorText s))] := by
    cases g <;> rfl
  simp [h1, h2, mirrorText_mirrorText]

/-- C3: an element matched by no more specific rule — not an `mstack`, not
an `mlongdiv`, and not carrying `dir='rtl'` — is copied with identical tag
and attributes, its children dispatched recursively in original order. -/
theorem c3_default_rule (f : Nat) (t : String) (a : List Attr) (c : List Node)
    (h1 : t ≠ "mstack") (h2 : t ≠ "mlongdiv") (h3 : getAttr a "dir" ≠ some "rtl") :
    transform (f + 1) (Node.elem t a c) = [Node.elem t a (transformList f c)] := by
  rw [transform_elem_unfold, if_neg h1, if_neg h2, if_neg h3]

/-- C3 (witness). -/
theorem c3_default_rule_witness :
    transform 1 (Node.elem "mi" [("mathvariant", "bold")] [Node.text "x"]) =
      [Node.elem "mi" [("mathvariant", "bold")] (transformList 0 [Node.text "x"])] :=
  c3_default_rule 0 "mi" [("mathvariant", "bold")] [Node.text "x"]
    (by decide) (by decide) (by decide)

/-- C4 (counterexample): an `msline` of declared length 2 lowered at offset
0 in a left-aligned stack gets anchor `0`, not `p + declaredLength = 2`:
the anchor does depend on the stack's alignment mode. -/
theorem c4_counterexample :
    nodeAttr (mslineTemplate (some 0) "left" [("length", "2")]) "l" = some "0" ∧
    (some "0" : Option String) ≠ some (toString ((0 : Int) + 2)) :=
  ⟨by decide, by decide⟩

/-- C4 (amended): an `msline` with nonzero declared length anchors at
`p + declaredLength` under right or decimalpoint alignment (decimalpoint
being the default when `stackalign` is absent) and at `p` under any other
alignment; an absent or zero length yields the fill-to-max marker. -/
theorem c4_amended (p k : Int) (salign len : String)
    (hk : xnum len = some k) (hnz : k ≠ 0) :
    nodeAttr (mslineTemplate (some p) salign [("length", len)]) "l" =
      some (if salign = "right" ∨ salign = "decimalpoint" ∨ salign = "" then
              toString (p + k) else toString p) ∧
    nodeAttr (mslineTemplate (some p) salign [("length", "0")]) "l" = some "*" ∧
    nodeAttr (mslineTemplate (some p) salign []) "l" = some "*" := by
  have hne : len ≠ "" := by
    intro h
    rw [h] at hk
    simp [xnum] at hk
  refine ⟨?_, rfl, rfl⟩
  by_cases hs0 : salign = "" <;> by_cases hr : salign = "right" <;>
    by_cases hd : salign = "decimalpoint" <;>
    simp_all [mslineTemplate, nodeAttr, nodeAttrs, getAttr, xadd, xToString]

/-- C4 (witness). -/
theorem c4_amended_witness :
    nodeAttr (mslineTemplate (some 1) "left" [("length", "2")]) "l" =
      some (if "left" = "right" ∨ "left" = "decimalpoint" ∨ "left" = "" then
              toString ((1 : Int) + 2) else toString (1 : Int)) ∧
    nodeAttr (mslineTemplate (some 1) "left" [("length", "0")]) "l" = some "*" ∧
    nodeAttr (mslineTemplate (some 1) "left" []) "l" = some "*" :=
  c4_amended 1 2 "left" "2" (by decide) (by decide)

/-- C5: under left alignment the `mn` row's anchor attribute is the literal
string `$p` — the stylesheet writes `l="$p"` without attribute-value-template
braces, and the left-alignment case never overwrites it — rather than the
inherited offset `p` (here 0) that the specification describes and that the
right / center / decimalpoint branches implement via `xsl:attribute`. -/
theorem c5_left_align_literal :
    nodeAttr (mnTemplate (some 0) "left" none "36") "l" = some "$p" ∧
    ("$p" : String) ≠ toString (0 : Int) :=
  ⟨by decide, by decide⟩

/-- C6: an `msup` with element base `b` and superscript `s` mirrors to an
`mmultiscripts` whose children are the mirrored base, the `mprescripts`
marker, a `none` in the pre-subscript slot, and the mirrored superscript as
the prescript superscript. -/
theorem c6_msup_rtl (f : Nat) (a : List Attr) (b s : Node)
    (hb : b.isElem = true) (hs : s.isElem = true) :
    rtlNode (f + 1) (Node.elem "msup" a [b, s]) =
      [Node.elem "mmultiscripts" []
        (rtlNode f b ++
         [Node.elem "mprescripts" [] [], Node.elem "none" [] []] ++
         rtlNode f s)] := by
  have hels : elemChildren [b, s] = [b, s] := by
    simp [elemChildren, List.filter, hb, hs]
  have step : rtlNode (f + 1) (Node.elem "msup" a [b, s]) =
      [Node.elem "mmultiscripts" []
        ((match (elemChildren [b, s]).get? 0 with | some x => rtlNode f x | none => []) ++
         [Node.elem "mprescripts" [] [], Node.elem "none" [] []] ++
         (match (elemChildren [b, s]).get? 1 with | some x => rtlNode f x | none => []))] :=
    rfl
  rw [step, hels]
  rfl

/-- C6 (witness). -/
theorem c6_msup_rtl_witness :
    rtlNode 4 (Node.elem "msup" [] [Node.elem "mi" [] [], Node.elem "mn" [] []]) =
      [Node.elem "mmultiscripts" []
        (rtlNode 3 (Node.elem "mi" [] []) ++
         [Node.elem "mprescripts" [] [], Node.elem "none" [] []] ++
         rtlNode 3 (Node.elem "mn" [] []))] :=
  c6_msup_rtl 3 [] (Node.elem "mi" [] []) (Node.elem "mn" [] []) rfl rfl

/-- C7: a text node processed in rtl mode exchanges exactly the pairs
`(`/`)`, braces, `<`/`>`, and element-of/contains-as-member; every other
text value is emitted unchanged. -/
theorem c7_text_substitution (f : Nat) (s : String) :
    rtlNode f (Node.text s) =
      [Node.text (if s = "(" then ")" else if s = ")" then "("
        else if s = "\x7b" then "\x7d" else if s = "\x7d" then "\x7b"
        else if s = "<" then ">" else if s = ">" then "<"
        else if s = "∈" then "∋" else if s = "∋" then "∈" else s)] := by
  cases f <;> rfl

/-- C8: an `mstack` or `mlongdiv` met in rtl mode is not mirrored: it is
wrapped in an `mrow` with `dir='ltr'` whose content is the ordinary
default-mode processing of the node itself. -/
theorem c8_forced_ltr (f : Nat) (t : String) (a : List Attr) (c : List Node)
    (h : t = "mstack" ∨ t = "mlongdiv") :
    rtlNode (f + 1) (Node.elem t a c) =
      [Node.elem "mrow" [("dir", "ltr")] (transform f (Node.elem t a c))] := by
  rcases h with h | h <;> subst h <;> rfl

/-- C8 (witness). -/
theorem c8_forced_ltr_witness :
    rtlNode 6 (Node.elem "mstack" [] []) =
      [Node.elem "mrow" [("dir", "ltr")] (transform 5 (Node.elem "mstack" [] []))] :=
  c8_forced_ltr 5 "mstack" [] [] (Or.inl rfl)

/-- C9: the filter is gated by `enableMml3`, whose handler default is
`true`: with the flag false the data tree is left unchanged, with the flag
true the transform is applied to it. -/
theorem c9_enable_gate (args : FilterData) :
    enableMml3Default = true ∧
    (args.enableMml3 = false → mmlFilter args = args) ∧
    (args.enableMml3 = true →
      mmlFilter args = { args with data := mml3Transform args.data }) := by
  refine ⟨rfl, fun h => ?_, fun h => ?_⟩ <;> simp [mmlFilter, h]

/-- C9 (witness). -/
theorem c9_enable_gate_witness :
    mmlFilter ⟨Node.text "x", false⟩ = ⟨Node.text "x", false⟩ ∧
    mmlFilter ⟨Node.text "x", true⟩ =
      { data := mml3Transform (Node.text "x"), enableMml3 := true } :=
  ⟨(c9_enable_gate ⟨Node.text "x", false⟩).2.1 rfl,
   (c9_enable_gate ⟨Node.text "x", true⟩).2.2 rfl⟩

/-- C10: the handler's document construction is idempotent on the jax list:
the first run may add the filter to the first MathML jax and set its
`_mml3` guard, and any further run leaves the list — in particular every
jax's filter count — unchanged. -/
theorem c10_filter_once (js : List Jax) :
    addMml3Filter (addMml3Filter js) = addMml3Filter js := by
  induction js with
  | nil => rfl
  | cons j rest ih =>
    by_cases hn : j.name = "MathML"
    · by_cases hf : j.mml3Flag
      · simp [addMml3Filter, hn, hf]
      · simp [addMml3Filter, hn, hf]
    · simp [addMml3Filter, hn, ih]

end Mml3
